import Mathlib

/-!
Verification of `cardio_audio_sleep.utils.async_timings.generate_async_timings`.

The function is embedded shallowly over `ℚ` (exact rational arithmetic in
place of Python floats).  The ambient random draw
`np.random.choice(valids, size=n-1, replace=True)` is made explicit: the
drawn delays are passed as an extra `draws : List ℚ` parameter, and the
theorems quantify over draws of the right length whose elements come from
the cleaned interval set.
-/

set_option autoImplicit false

namespace AsyncTimings

/-- Embedding of `np.diff`: consecutive differences of a sequence. -/
def npDiff (s : List ℚ) : List ℚ :=
  List.zipWith (fun a b => b - a) s s.tail

/-- One iteration of the iterative z-score outlier rejection.

Modelled from the spec: the outlier filter of the source is
`_find_outliers` from the external `mne` dependency, which is not among
this repository's sources.  Per the spec, each iteration computes the mean
and (population) standard deviation of the currently non-flagged values
and flags any non-flagged value whose absolute z-score exceeds the
threshold; flagged values stay flagged.  To remain in exact rational
arithmetic, the test `|x - μ| / σ > t` is written in the equivalent
squared form `(x - μ)² > t² · σ²` (equivalent for `t ≥ 0`; when the
variance is 0 every remaining deviation is 0 and nothing is flagged,
matching the spec's convergence rule for σ = 0). -/
def outlierStep (X : List ℚ) (t : ℚ) (mask : List Bool) : List Bool :=
  let inVals := (X.zip mask).filterMap (fun p => if p.2 then none else some p.1)
  let m : ℚ := inVals.length
  if inVals.length = 0 then mask
  else
    let μ := inVals.sum / m
    let v := (inVals.map (fun x => (x - μ) ^ 2)).sum / m
    (X.zip mask).map (fun p => p.2 || decide ((p.1 - μ) ^ 2 > t ^ 2 * v))

/-- The mask after `k` iterations of `outlierStep`, starting from the
all-false mask. -/
def iterMask (X : List ℚ) (t : ℚ) : ℕ → List Bool
  | 0 => List.replicate X.length false
  | k + 1 => outlierStep X t (iterMask X t k)

/-- Modelled from the spec: `_find_outliers(X, threshold, max_iter)` of the
external `mne` dependency.  Starts from the all-false mask and applies
`outlierStep` `maxIter` times.  (The early break of the library's loop —
stopping as soon as an iteration flags nothing new — is behaviourally
irrelevant: an iteration that flags nothing leaves the mask unchanged and
is therefore a fixed point of `outlierStep`, so running the remaining
iterations yields the same mask.) -/
def find_outliers (X : List ℚ) (t : ℚ) (maxIter : ℕ) : List Bool :=
  iterMask X t maxIter

/-- The cleaned interval subset: `valids = diff[~outliers]` in the source,
i.e. the consecutive intervals of `seq` that the outlier filter (with the
source's `max_iter=3`) did not flag. -/
def cleanedIntervals (seq : List ℚ) (zscore : ℚ) : List ℚ :=
  let diff := npDiff seq
  (diff.zip (find_outliers diff zscore 3)).filterMap
    (fun p => if p.2 then none else some p.1)

/-- The synthesis loop of the source:
`for k, delay in enumerate(delays): timings[k + 1] = timings[-1] + delay`.
The state `t` is the timings array and `k` the loop index; `timings[-1]`
is the last element of the array (`t.getLastD 0`; the array is non-empty
whenever the loop body runs, so the default is never consulted). -/
def synthLoop (t : List ℚ) (k : ℕ) : List ℚ → List ℚ
  | [] => t
  | d :: ds => synthLoop (t.set (k + 1) (t.getLastD 0 + d)) (k + 1) ds

/-- Embedding of the synthesis stage: `timings = np.zeros((n,))` followed
by the loop writing `timings[k + 1] = timings[-1] + delay`. -/
def npSynth (n : ℕ) (delays : List ℚ) : List ℚ :=
  synthLoop (List.replicate n 0) 0 delays

/-- The exception raised by the embedded function (`ValueError` for an
out-of-range `valid_perc`). -/
inductive PyError where
  | valueError : PyError

/-- The returned pair `(sequence_timings, valid)` of the source, together
with its diagnostic side channel: `warned` records whether
`logger.warning(...)` was executed during the call. -/
structure GenResult where
  timings : Option (List ℚ)
  valid : Bool
  warned : Bool

/-- Embedding of `generate_async_timings(sequence_timings, zscore,
valid_perc)`.  `draws` supplies the values produced by
`np.random.choice(valids, size=n-1, replace=True)`; everything else
follows the source line by line: the range check on `valid_perc`, the
diff, the outlier filter, the empty-`valids` early return, the verdict
`valid = 100 * valids.size / (n - 1) < valid_perc`, the warning emitted
`if not valid`, and the synthesis loop. -/
def generate_async_timings (seq : List ℚ) (zscore valid_perc : ℚ)
    (draws : List ℚ) : Except PyError GenResult :=
  if valid_perc < 0 ∨ 100 < valid_perc then .error .valueError
  else
    let n := seq.length
    let valids := cleanedIntervals seq zscore
    if valids.length = 0 then .ok ⟨none, false, false⟩
    else
      let valid : Bool := decide (100 * (valids.length : ℚ) / ((n : ℚ) - 1) < valid_perc)
      let timings := npSynth n draws
      .ok ⟨some timings, valid, !valid⟩

/-! ### Helper lemmas -/

theorem synthLoop_length (ds : List ℚ) :
    ∀ (t : List ℚ) (k : ℕ), (synthLoop t k ds).length = t.length := by
  induction ds with
  | nil => intro t k; rfl
  | cons d ds ih =>
      intro t k
      simp only [synthLoop]
      rw [ih]
      exact List.length_set t (k + 1) _

theorem npSynth_length (n : ℕ) (ds : List ℚ) : (npSynth n ds).length = n := by
  unfold npSynth
  rw [synthLoop_length]
  exact List.length_replicate n 0

theorem getLastD_append_replicate (p : List ℚ) (r : ℕ) (d : ℚ) :
    (p ++ List.replicate (r + 1) (0 : ℚ)).getLastD d = 0 := by
  rw [List.replicate_succ', ← List.append_assoc]
  exact List.getLastD_concat d 0 _

theorem synthLoop_append (ds : List ℚ) :
    ∀ (p : List ℚ) (k r : ℕ), k + 1 = p.length → ds.length ≤ r →
      synthLoop (p ++ List.replicate r 0) k ds =
        p ++ ds ++ List.replicate (r - ds.length) 0 := by
  induction ds with
  | nil =>
      intro p k r _ _
      simp [synthLoop]
  | cons d ds ih =>
      intro p k r hk hr
      have hr1 : 1 ≤ r := le_trans (Nat.succ_le_succ (Nat.zero_le _)) hr
      obtain ⟨r', rfl⟩ : ∃ r', r = r' + 1 := ⟨r - 1, by omega⟩
      simp only [synthLoop]
      rw [getLastD_append_replicate, zero_add, hk,
        List.set_append_right p.length d le_rfl, Nat.sub_self,
        List.replicate_succ, List.set_cons_zero]
      have hmid : p ++ d :: List.replicate r' (0 : ℚ) =
          (p ++ [d]) ++ List.replicate r' 0 := by
        simp
      rw [hmid, ih (p ++ [d]) p.length r' (by simp) (by simpa using hr)]
      simp [Nat.succ_sub_succ]

theorem npSynth_eq_cons (n : ℕ) (ds : List ℚ) (h1 : 1 ≤ n)
    (h : ds.length = n - 1) : npSynth n ds = 0 :: ds := by
  obtain ⟨m, rfl⟩ : ∃ m, n = m + 1 := ⟨n - 1, by omega⟩
  have hm : ds.length = m := by omega
  unfold npSynth
  have hrep : List.replicate (m + 1) (0 : ℚ) = [0] ++ List.replicate m 0 := by
    simp [List.replicate_succ]
  rw [hrep, synthLoop_append ds [0] 0 m (by simp) (by omega), hm]
  simp

theorem cleanedIntervals_eq_nil_of_short (s : List ℚ) (z : ℚ)
    (hs : s.length ≤ 1) : cleanedIntervals s z = [] := by
  match s with
  | [] => rfl
  | [x] => rfl
  | x :: y :: t => simp at hs

theorem two_le_length_of_cleaned_ne_nil {s : List ℚ} {z : ℚ}
    (h : cleanedIntervals s z ≠ []) : 2 ≤ s.length := by
  by_contra hlt
  exact h (cleanedIntervals_eq_nil_of_short s z (by omega))

theorem gen_error {seq : List ℚ} {z vp : ℚ} {ds : List ℚ}
    (h : vp < 0 ∨ 100 < vp) :
    generate_async_timings seq z vp ds = .error .valueError := by
  simp only [generate_async_timings]
  rw [if_pos h]

theorem gen_empty {seq : List ℚ} {z vp : ℚ} {ds : List ℚ}
    (hvp : ¬(vp < 0 ∨ 100 < vp)) (h : cleanedIntervals seq z = []) :
    generate_async_timings seq z vp ds = .ok ⟨none, false, false⟩ := by
  simp only [generate_async_timings]
  rw [if_neg hvp, h]
  simp

theorem gen_ok {seq : List ℚ} {z vp : ℚ} {ds : List ℚ}
    (hvp : ¬(vp < 0 ∨ 100 < vp)) (hne : cleanedIntervals seq z ≠ []) :
    generate_async_timings seq z vp ds =
      .ok ⟨some (npSynth seq.length ds),
        decide (100 * ((cleanedIntervals seq z).length : ℚ) /
          ((seq.length : ℚ) - 1) < vp),
        !decide (100 * ((cleanedIntervals seq z).length : ℚ) /
          ((seq.length : ℚ) - 1) < vp)⟩ := by
  have hlen : ¬((cleanedIntervals seq z).length = 0) := by
    simpa using hne
  simp only [generate_async_timings]
  rw [if_neg hvp, if_neg hlen]

theorem cleaned_eval_012 : cleanedIntervals [0, 1, 2] 4 = [1, 1] := by
  norm_num [cleanedIntervals, find_outliers, iterMask, outlierStep, npDiff,
    List.zip_cons_cons, List.zip_nil_right, List.filterMap_cons,
    List.filterMap_nil, List.replicate]

theorem cleaned_eval_013 : cleanedIntervals [0, 1, 3] 4 = [1, 2] := by
  norm_num [cleanedIntervals, find_outliers, iterMask, outlierStep, npDiff,
    List.zip_cons_cons, List.zip_nil_right, List.filterMap_cons,
    List.filterMap_nil, List.replicate]

theorem cleaned_eval_all_outliers :
    cleanedIntervals [0, 1, 101] (1 / 1000) = [] := by
  norm_num [cleanedIntervals, find_outliers, iterMask, outlierStep, npDiff,
    List.zip_cons_cons, List.zip_nil_right, List.filterMap_cons,
    List.filterMap_nil, List.replicate]

/-! ### Claim theorems -/

/-- Claim C1 (code bug, evaluation at a failing input): the claim states
that the returned verdict equals `ratio ≥ valid_perc`, in line with the
source's own docstring, but the source computes
`valid = 100 * valids.size / (n - 1) < valid_perc`, the inverted
comparison.  At input `[0, 1, 2]` with `zscore = 4` and `valid_perc = 60`
every interval survives, the ratio is `100 ≥ 60`, yet the function returns
`valid = False` (and emits the warning). -/
theorem C1_verdict_inverted_at_failing_input :
    generate_async_timings [0, 1, 2] 4 60 [1, 1] =
      .ok ⟨some [0, 1, 1], false, true⟩ ∧
    (60 : ℚ) ≤ 100 * ((cleanedIntervals [0, 1, 2] 4).length : ℚ) /
      ((([0, 1, 2] : List ℚ).length : ℚ) - 1) := by
  constructor
  · rw [gen_ok (by norm_num) (by simp [cleaned_eval_012]),
      npSynth_eq_cons _ _ (by norm_num) (by norm_num)]
    norm_num [cleaned_eval_012]
  · rw [cleaned_eval_012]
    norm_num

/-- Claim C2 (code bug, evaluation at a failing input): the claim states
that the output is the running cumulative sum of the drawn delays seeded
at 0, i.e. element `k+1` = element `k` + delay `k`.  The source instead
executes `timings[k + 1] = timings[-1] + delay`, reading the still-zero
last slot, so at input `[0, 1, 2]` with draws `[1, 1]` it returns
`[0, 1, 1]` while the cumulative sum (`List.scanl (+) 0`) is `[0, 1, 2]`. -/
theorem C2_output_not_cumulative_sum :
    generate_async_timings [0, 1, 2] 4 50 [1, 1] =
      .ok ⟨some [0, 1, 1], false, true⟩ ∧
    List.scanl (· + ·) (0 : ℚ) [1, 1] = [0, 1, 2] ∧
    ([0, 1, 1] : List ℚ) ≠ [0, 1, 2] := by
  refine ⟨?_, by norm_num [List.scanl], by norm_num⟩
  rw [gen_ok (by norm_num) (by simp [cleaned_eval_012]),
    npSynth_eq_cons _ _ (by norm_num) (by norm_num)]
  norm_num [cleaned_eval_012]

/-- Claim C3 (code bug, evaluation at a failing input): the claim states
that the returned sequence starts at 0 and is monotonically
non-decreasing.  Because the source writes `timings[k + 1] =
timings[-1] + delay` instead of accumulating, the output is
`0 :: draws`, which is not sorted when the draws are not: at input
`[0, 1, 3]` with draws `[2, 1]` (both members of the cleaned set) the
function returns `[0, 2, 1]`, which decreases from 2 to 1. -/
theorem C3_output_not_monotone :
    generate_async_timings [0, 1, 3] 4 60 [2, 1] =
      .ok ⟨some [0, 2, 1], false, true⟩ ∧
    ¬ List.Chain' (· ≤ ·) ([0, 2, 1] : List ℚ) := by
  constructor
  · rw [gen_ok (by norm_num) (by simp [cleaned_eval_013]),
      npSynth_eq_cons _ _ (by norm_num) (by norm_num)]
    norm_num [cleaned_eval_013]
  · norm_num [List.chain'_cons]

/-- Claim C4 (code bug, evaluation at a failing input): the claim states
that every consecutive difference of the returned sequence is a member of
the cleaned interval subset.  At input `[0, 1, 3]` (cleaned intervals
`[1, 2]`) with draws `[2, 1]` the function returns `[0, 2, 1]`, whose
consecutive differences are `[2, -1]`, and `-1` is not in the cleaned
set. -/
theorem C4_derived_interval_not_member :
    generate_async_timings [0, 1, 3] 4 55 [2, 1] =
      .ok ⟨some [0, 2, 1], false, true⟩ ∧
    npDiff [0, 2, 1] = [2, -1] ∧
    (-1 : ℚ) ∉ cleanedIntervals [0, 1, 3] 4 := by
  refine ⟨?_, by norm_num [npDiff], ?_⟩
  · rw [gen_ok (by norm_num) (by simp [cleaned_eval_013]),
      npSynth_eq_cons _ _ (by norm_num) (by norm_num)]
    norm_num [cleaned_eval_013]
  · rw [cleaned_eval_013]
    norm_num

/-- Claim C5 (confirmed): for every input sequence with a non-empty
cleaned interval set and an in-range `valid_perc`, and for every sequence
of drawn delays of length `N - 1`, the call succeeds and the returned
timing sequence has length exactly `N`, regardless of the verdict. -/
theorem C5_length_preservation (seq : List ℚ) (z vp : ℚ) (ds : List ℚ)
    (hvp : ¬(vp < 0 ∨ 100 < vp)) (hne : cleanedIntervals seq z ≠ [])
    (hds : ds.length = seq.length - 1) :
    ∃ r : GenResult, generate_async_timings seq z vp ds = .ok r ∧
      ∃ t : List ℚ, r.timings = some t ∧ t.length = seq.length :=
  ⟨_, gen_ok hvp hne, npSynth seq.length ds, rfl, npSynth_length _ _⟩

theorem C5_length_preservation_witness :
    ∃ r : GenResult, generate_async_timings [0, 1, 2] 4 60 [1, 1] = .ok r ∧
      ∃ t : List ℚ, r.timings = some t ∧
        t.length = ([0, 1, 2] : List ℚ).length :=
  C5_length_preservation [0, 1, 2] 4 60 [1, 1] (by norm_num)
    (by simp [cleaned_eval_012]) (by norm_num)

/-- Claim C6 (confirmed): when the outlier filter flags every interval
(the cleaned interval set is empty) and `valid_perc` is in range, the
operation does not raise: it returns the pair (no sequence, `False`), and
no synthesis is performed (the sequence slot of the result is `none` for
every possible draw). -/
theorem C6_empty_cleaned_soft_failure (seq : List ℚ) (z vp : ℚ)
    (ds : List ℚ) (hvp : ¬(vp < 0 ∨ 100 < vp))
    (h : cleanedIntervals seq z = []) :
    generate_async_timings seq z vp ds = .ok ⟨none, false, false⟩ :=
  gen_empty hvp h

theorem C6_empty_cleaned_soft_failure_witness :
    generate_async_timings [0, 1, 101] (1 / 1000) 60 [] =
      .ok ⟨none, false, false⟩ :=
  C6_empty_cleaned_soft_failure [0, 1, 101] (1 / 1000) 60 [] (by norm_num)
    cleaned_eval_all_outliers

/-- Claim C7 (confirmed): for every `valid_perc` strictly below 0 or
strictly above 100 the operation raises the configuration error; the
result is the error for every input sequence, every `zscore` and every
draw, i.e. it is produced independently of (before) any interval
extraction, outlier filtering or synthesis. -/
theorem C7_config_error (seq : List ℚ) (z : ℚ) (ds : List ℚ) (vp : ℚ)
    (h : vp < 0 ∨ 100 < vp) :
    generate_async_timings seq z vp ds = .error .valueError :=
  gen_error h

theorem C7_config_error_witness :
    generate_async_timings [0, 1] 4 150 [] = .error .valueError :=
  C7_config_error [0, 1] 4 [] 150 (Or.inr (by norm_num))

/-- Claim C8 (confirmed): stages 1–3 are deterministic.  The outlier mask
is a pure function of the input intervals and `zscore` (two runs yield
identical masks), and the verdict and warning of the full call do not
depend on the randomly drawn delays. -/
theorem C8_cleaning_deterministic (seq : List ℚ) (z vp : ℚ)
    (d1 d2 : List ℚ) :
    find_outliers (npDiff seq) z 3 = find_outliers (npDiff seq) z 3 ∧
    cleanedIntervals seq z = cleanedIntervals seq z ∧
    (generate_async_timings seq z vp d1).map GenResult.valid =
      (generate_async_timings seq z vp d2).map GenResult.valid ∧
    (generate_async_timings seq z vp d1).map GenResult.warned =
      (generate_async_timings seq z vp d2).map GenResult.warned := by
  refine ⟨rfl, rfl, ?_, ?_⟩ <;>
  · by_cases hvp : vp < 0 ∨ 100 < vp
    · rw [gen_error hvp, gen_error hvp]
    · by_cases hne : cleanedIntervals seq z = []
      · rw [gen_empty hvp hne, gen_empty hvp hne]
      · rw [gen_ok hvp hne, gen_ok hvp hne]
        rfl

/-- Claim C9 (confirmed): with a non-empty cleaned interval set, an
in-range `valid_perc` and draws `d[0..N-2]` taken from the cleaned set,
the returned sequence is exactly `0 :: draws` — element `k ≥ 1` is the
single drawn delay `d[k-1]` (the accumulation reads the last element,
still zero, rather than the previous element), so every element after the
first is itself a member of the cleaned interval subset. -/
theorem C9_output_is_zero_cons_draws (seq : List ℚ) (z vp : ℚ)
    (ds : List ℚ) (hvp : ¬(vp < 0 ∨ 100 < vp))
    (hne : cleanedIntervals seq z ≠ [])
    (hds : ds.length = seq.length - 1)
    (hmem : ∀ d ∈ ds, d ∈ cleanedIntervals seq z) :
    ∃ r : GenResult, generate_async_timings seq z vp ds = .ok r ∧
      r.timings = some ((0 : ℚ) :: ds) ∧
      ∀ x ∈ ((0 : ℚ) :: ds).tail, x ∈ cleanedIntervals seq z := by
  have h2 : 2 ≤ seq.length := two_le_length_of_cleaned_ne_nil hne
  have hsynth : npSynth seq.length ds = 0 :: ds :=
    npSynth_eq_cons _ _ (by omega) hds
  exact ⟨_, gen_ok hvp hne, by rw [hsynth], by simpa using hmem⟩

theorem C9_output_is_zero_cons_draws_witness :
    ∃ r : GenResult, generate_async_timings [0, 1, 3] 4 60 [2, 1] = .ok r ∧
      r.timings = some ((0 : ℚ) :: [2, 1]) ∧
      ∀ x ∈ ((0 : ℚ) :: [2, 1]).tail, x ∈ cleanedIntervals [0, 1, 3] 4 :=
  C9_output_is_zero_cons_draws [0, 1, 3] 4 60 [2, 1] (by norm_num)
    (by simp [cleaned_eval_013]) (by norm_num)
    (by intro d hd; rw [cleaned_eval_013]; simp at hd ⊢; exact hd.symm)

/-- Claim C10 (confirmed): whenever the call returns an actual sequence,
the diagnostic warning was emitted if and only if the returned verdict is
`False`, and — under the source's inverted computation of the verdict —
the verdict is `False` exactly when `100 * S / (N - 1) ≥ valid_perc`:
the warning fires in the high-survival case and the low-survival case
returns silently with verdict `True`. -/
theorem C10_warning_iff_high_survival (seq : List ℚ) (z vp : ℚ)
    (ds : List ℚ) (r : GenResult)
    (h : generate_async_timings seq z vp ds = .ok r)
    (ht : r.timings.isSome = true) :
    (r.warned = true ↔ r.valid = false) ∧
    (r.valid = false ↔
      vp ≤ 100 * ((cleanedIntervals seq z).length : ℚ) /
        ((seq.length : ℚ) - 1)) := by
  by_cases hvp : vp < 0 ∨ 100 < vp
  · rw [gen_error hvp] at h
    exact absurd h (by simp)
  by_cases hne : cleanedIntervals seq z = []
  · rw [gen_empty hvp hne] at h
    simp only [Except.ok.injEq] at h
    rw [← h] at ht
    simp at ht
  · rw [gen_ok hvp hne] at h
    simp only [Except.ok.injEq] at h
    subst h
    constructor
    · cases hP : decide (100 * ((cleanedIntervals seq z).length : ℚ) /
          ((seq.length : ℚ) - 1) < vp) <;> simp [hP]
    · simp only [decide_eq_false_iff_not, not_lt]

theorem C10_warning_iff_high_survival_witness :
    (((⟨some [0, 1, 1], false, true⟩ : GenResult).warned = true ↔
      (⟨some [0, 1, 1], false, true⟩ : GenResult).valid = false)) ∧
    ((⟨some [0, 1, 1], false, true⟩ : GenResult).valid = false ↔
      (70 : ℚ) ≤ 100 * ((cleanedIntervals [0, 1, 2] 4).length : ℚ) /
        ((([0, 1, 2] : List ℚ).length : ℚ) - 1)) :=
  C10_warning_iff_high_survival [0, 1, 2] 4 70 [1, 1]
    ⟨some [0, 1, 1], false, true⟩
    (by rw [gen_ok (by norm_num) (by simp [cleaned_eval_012]),
          npSynth_eq_cons _ _ (by norm_num) (by norm_num)]
        norm_num [cleaned_eval_012])
    rfl

end AsyncTimings
